import Mathlib

/-!
Verification of the RAG subsystem of a document question-answering backend.

The development shallowly embeds the Python source of the repository:
  - `backend/rag/ingestion.py` : `_chunk_text`, `_embed_text`, `ingest_document`
  - `backend/rag/retrieval.py` : `retrieve_context`, `build_rag_system_prompt`
  - `backend/rag/router.py` / `shared_router.py` : the upload quota loop
Pure functions become Lean functions; the `while` loop of the chunker and the
retry loop of the embedding client become fuel-indexed step functions that
mirror the loop body literally; the SQL similarity query becomes list
comprehensions over an explicit relational database value, with a stable merge
sort standing for `ORDER BY distance ASC` and `List.take` for `LIMIT`.
-/

/-! ## Chunker (`_chunk_text` in backend/rag/ingestion.py)

Python splits the text on whitespace (`text.split()`), so the input is
modelled as the resulting word list: a `List String` in which every word is
non-empty and contains no whitespace character (`isWordList`).  A chunk is the
word window `words[i : i + chunk_size]`; the source joins it with single
spaces, and the guard `if chunk.strip():` appends the joined string exactly
when some word of the window contains a non-whitespace character
(`windowNonBlank`).  We keep chunks as word windows; `joinWords` recovers the
string the source stores.

The loop variable `i` is modelled as `Nat` and the advance
`i += chunk_size - overlap` as truncated subtraction: for `size ≤ overlap`
the start index never reaches the word count, and the loop never finishes —
`chunkLoop` returns `none` for every fuel amount, matching the divergence of
the Python loop (`i` frozen for `size = overlap`, moving backwards for
`size < overlap`).  For `overlap < size` the model is exact. -/

/-- A word list as produced by Python `str.split()`: every word is non-empty
and free of whitespace characters. -/
def isWordList (words : List String) : Prop :=
  ∀ w ∈ words, w.data ≠ [] ∧ ∀ c ∈ w.data, c.isWhitespace = false

/-- Truthiness of `" ".join(window).strip()`: some word of the window has a
non-whitespace character. -/
def windowNonBlank (ws : List String) : Bool :=
  ws.any fun w => w.data.any fun c => !c.isWhitespace

/-- The string the source stores for a window: `" ".join(window)`. -/
def joinWords (ws : List String) : String :=
  " ".intercalate ws

/-- One-step-per-fuel-unit image of the `while i < len(words)` loop of
`_chunk_text`.  `none` means the fuel ran out with the loop still running. -/
def chunkLoop (words : List String) (size overlap : Nat) :
    Nat → Nat → List (List String) → Option (List (List String))
  | 0, _, _ => none
  | fuel + 1, i, acc =>
    if i < words.length then
      let w := (words.drop i).take size
      chunkLoop words size overlap fuel (i + (size - overlap))
        (if windowNonBlank w then acc ++ [w] else acc)
    else
      some acc

/-- `_chunk_text(text, chunk_size, overlap)`, run with enough fuel for any
terminating execution (for `overlap < size` the loop runs at most
`words.length` iterations).  `none` exactly when the loop diverges. -/
def chunkText (words : List String) (size overlap : Nat) :
    Option (List (List String)) :=
  chunkLoop words size overlap (words.length + 1) 0 []

/-- `chunkText` never finishes: the loop diverges on this input. -/
def chunkDiverges (words : List String) (size overlap : Nat) : Prop :=
  ∀ fuel i acc, i < words.length →
    chunkLoop words size overlap fuel i acc = none

/-- Ceiling division on naturals. -/
def ceilDiv (a b : Nat) : Nat :=
  (a + b - 1) / b

/-! ## Embedding client retry loop (`_embed_text` in backend/rag/ingestion.py)

The server's answer to each HTTP POST is one `EmbedResponse`; a run of the
client is determined by the map from attempt number to response.  The loop
`for attempt in range(max_retries)` becomes recursion on the number of
remaining attempts, threading the backoff state `wait` exactly as the source
does (`wait = 30` initially, `wait = min(wait * 2, 120)` after each sleep).
Delays are in whole seconds (`int(float(... .rstrip("s")))` in the source).
Embedding vectors are opaque payloads `α`. -/

/-- Outcome of one HTTP POST to the embedding endpoint. -/
inductive EmbedResponse (α : Type) where
  /-- status 429; the error body may carry a parseable `retryDelay` (seconds). -/
  | rateLimited (retryDelay : Option Nat)
  /-- success, carrying the embedding values. -/
  | ok (values : α)
  /-- any other HTTP error status: `raise_for_status` raises immediately. -/
  | httpError
deriving DecidableEq

/-- How a run of `_embed_text` ends. -/
inductive EmbedOutcome (α : Type) where
  /-- the embedding values were returned. -/
  | success (values : α)
  /-- `raise_for_status` on the final rate-limited attempt. -/
  | rateLimitError
  /-- `raise_for_status` on a non-429 error response. -/
  | httpFailure
  /-- the `raise RuntimeError` after the loop (reachable only with 0 attempts). -/
  | exhausted
deriving DecidableEq

/-- Observable trace of a run of `_embed_text`: outcome, the `time.sleep`
durations in order, and the number of HTTP attempts made. -/
structure RetryTrace (α : Type) where
  result : EmbedOutcome α
  sleeps : List Nat
  attempts : Nat
deriving DecidableEq

/-- The retry loop of `_embed_text`: `remaining` attempts left, current
attempt index, current backoff floor `wait`. -/
def embedLoop (responses : Nat → EmbedResponse α) :
    Nat → Nat → Nat → RetryTrace α
  | 0, _, _ => ⟨.exhausted, [], 0⟩
  | r + 1, attempt, wait =>
    match responses attempt with
    | .ok v => ⟨.success v, [], 1⟩
    | .httpError => ⟨.httpFailure, [], 1⟩
    | .rateLimited sug =>
      let retryDelay := match sug with
        | some s => max s wait
        | none => wait
      if 0 < r then
        let t := embedLoop responses r (attempt + 1) (min (wait * 2) 120)
        ⟨t.result, retryDelay :: t.sleeps, t.attempts + 1⟩
      else
        ⟨.rateLimitError, [], 1⟩

/-- `_embed_text(text, max_retries)` as a function of the server's responses. -/
def embedText (responses : Nat → EmbedResponse α) (maxRetries : Nat := 6) :
    RetryTrace α :=
  embedLoop responses maxRetries 0 30

/-- The backoff floor before the k-th sleep: 30 doubling each retry, capped
at 120. -/
def backoffFloor (k : Nat) : Nat :=
  min (30 * 2 ^ k) 120

/-! ## Data model (backend/models.py)

Only the columns the retrieval query and the claims read are modelled.
`User.department` is nullable (`Option String`); `SharedFolder.department` is
`NOT NULL` (`String`).  A chunk's `embedding` column is nullable; the vector
payload is kept opaque as `List Int` (its values are only ever fed to the
abstract distance function). -/

structure UserRow where
  email : String
  department : Option String
deriving DecidableEq

structure DocumentRow where
  id : Nat
  userEmail : String
  originalFilename : String
  isActive : Bool
deriving DecidableEq

structure DocumentChunkRow where
  documentId : Nat
  content : String
  embedding : Option (List Int)
  chunkIndex : Nat
deriving DecidableEq

structure SharedFolderRow where
  id : Nat
  department : String
deriving DecidableEq

structure SharedDocumentRow where
  id : Nat
  folderId : Nat
  originalFilename : String
  isVisible : Bool
  isRagActive : Bool
deriving DecidableEq

structure SharedDocumentChunkRow where
  documentId : Nat
  content : String
  embedding : Option (List Int)
  chunkIndex : Nat
deriving DecidableEq

structure UserSharedDocPrefRow where
  userEmail : String
  docId : Nat
  isRagActive : Bool
deriving DecidableEq

/-- The relational state the retrieval query reads. -/
structure Database where
  users : List UserRow
  documents : List DocumentRow
  chunks : List DocumentChunkRow
  sharedFolders : List SharedFolderRow
  sharedDocs : List SharedDocumentRow
  sharedChunks : List SharedDocumentChunkRow
  prefs : List UserSharedDocPrefRow
deriving DecidableEq

/-! ## Retrieval pipeline (`retrieve_context` in backend/rag/retrieval.py)

The similarity operator `embedding <=> CAST(:embedding AS vector)` is an
opaque numeric function of the stored vector once the query embedding is
fixed, so it enters the model as `dist : List Int → Rat`.  Each SQL
subquery becomes a list comprehension producing rows paired with their
distance; `UNION ALL` is `++` (personal rows first, as in the source);
`ORDER BY distance LIMIT :top_k` is a sort on the distance column followed
by `List.take` (the SQL leaves tie order arbitrary, so any sort by distance
is a faithful image). -/

inductive SourceType where
  | personal
  | shared
deriving DecidableEq

/-- One row of the combined similarity query, minus the distance column. -/
structure ResultRow where
  content : String
  chunkIndex : Nat
  documentId : Nat
  filename : String
  sourceType : SourceType
deriving DecidableEq

/-- `NOT EXISTS (SELECT 1 FROM user_shared_doc_prefs p WHERE ...)`:
the caller has a pref row for this shared document with
`is_rag_active = false`. -/
def hasOptOut (db : Database) (userEmail : String) (docId : Nat) : Bool :=
  db.prefs.any fun p =>
    p.userEmail = userEmail && p.docId = docId && p.isRagActive = false

/-- The personal subquery: `document_chunks` joined to `documents`, filtered
to the caller's active documents with a non-null embedding. -/
def personalRows (db : Database) (userEmail : String)
    (dist : List Int → Rat) : List (ResultRow × Rat) :=
  db.chunks.flatMap fun dc =>
    db.documents.flatMap fun d =>
      match dc.embedding with
      | none => []
      | some v =>
        if dc.documentId = d.id ∧ d.userEmail = userEmail ∧ d.isActive then
          [(⟨dc.content, dc.chunkIndex, dc.documentId, d.originalFilename,
             .personal⟩, dist v)]
        else []

/-- The admin branch of the shared subquery: every visible shared document,
no department restriction, minus per-user opt-outs. -/
def sharedRowsAdmin (db : Database) (userEmail : String)
    (dist : List Int → Rat) : List (ResultRow × Rat) :=
  db.sharedChunks.flatMap fun sc =>
    db.sharedDocs.flatMap fun sd =>
      match sc.embedding with
      | none => []
      | some v =>
        if sc.documentId = sd.id ∧ sd.isVisible ∧
            ¬hasOptOut db userEmail sc.documentId then
          [(⟨sc.content, sc.chunkIndex, sc.documentId, sd.originalFilename,
             .shared⟩, dist v)]
        else []

/-- SQL equality `sf.department = u.department` under null semantics: true
only when the caller's nullable department is non-null and equal. -/
def deptMatches (userDept : Option String) (folderDept : String) : Bool :=
  match userDept with
  | some dep => dep = folderDept
  | none => false

/-- The regular-caller branch of the shared subquery: joins `shared_folders`
and `users` and requires the folder department to equal the caller's
department attribute. -/
def sharedRowsUser (db : Database) (userEmail : String)
    (dist : List Int → Rat) : List (ResultRow × Rat) :=
  db.sharedChunks.flatMap fun sc =>
    db.sharedDocs.flatMap fun sd =>
      db.sharedFolders.flatMap fun sf =>
        db.users.flatMap fun u =>
          match sc.embedding with
          | none => []
          | some v =>
            if sc.documentId = sd.id ∧ sd.folderId = sf.id ∧
                u.email = userEmail ∧ deptMatches u.department sf.department ∧
                sd.isVisible ∧ ¬hasOptOut db userEmail sc.documentId then
              [(⟨sc.content, sc.chunkIndex, sc.documentId,
                 sd.originalFilename, .shared⟩, dist v)]
            else []

/-- The `UNION ALL` of the personal and the scope-selected shared subquery. -/
def combinedRows (db : Database) (userEmail : String) (isAdmin : Bool)
    (dist : List Int → Rat) : List (ResultRow × Rat) :=
  personalRows db userEmail dist ++
    (if isAdmin then sharedRowsAdmin db userEmail dist
     else sharedRowsUser db userEmail dist)

/-- The comparison of `ORDER BY distance`: ascending similarity distance. -/
def distLE (a b : ResultRow × Rat) : Prop :=
  a.2 ≤ b.2

instance : DecidableRel distLE := fun a b => inferInstanceAs (Decidable (a.2 ≤ b.2))

instance : IsTotal (ResultRow × Rat) distLE := ⟨fun a b => le_total a.2 b.2⟩

instance : IsTrans (ResultRow × Rat) distLE := ⟨fun _ _ _ => le_trans⟩

/-- `ORDER BY distance LIMIT :top_k` over the combined rows. -/
def rankedRows (db : Database) (userEmail : String) (isAdmin : Bool)
    (dist : List Int → Rat) (topK : Nat) : List (ResultRow × Rat) :=
  ((combinedRows db userEmail isAdmin dist).insertionSort distLE).take topK

/-- Environment of one `retrieve_context` call: whether `GOOGLE_API_KEY` is
set, the outcome of `_embed_query` (`none` = the call raised), whether
`db.execute` succeeds, and the distance of each stored vector from the
embedded query. -/
structure RetrievalEnv where
  apiKeyConfigured : Bool
  embedQueryResult : Option (List Int)
  dbOk : Bool
  dist : List Int → Rat

/-- The per-row context fragment `f"[Source: {row.filename}]\n{row.content}"`. -/
def contextPart (r : ResultRow) : String :=
  "[Source: " ++ r.filename ++ "]\n" ++ r.content

/-- `retrieve_context(query, user_email, db, is_admin, top_k)`:
returns the context string and the source rows. -/
def retrieveContext (env : RetrievalEnv) (db : Database) (userEmail : String)
    (isAdmin : Bool) (topK : Nat) : String × List ResultRow :=
  if ¬env.apiKeyConfigured then ("", [])
  else
    match env.embedQueryResult with
    | none => ("", [])
    | some _ =>
      if ¬env.dbOk then ("", [])
      else
        let rows := (rankedRows db userEmail isAdmin env.dist topK).map
          Prod.fst
        if rows = [] then ("", [])
        else ("\n\n---\n\n".intercalate (rows.map contextPart), rows)

/-! ## Ingestion chunk loop (`ingest_document` in backend/rag/ingestion.py)

The per-chunk body of `ingest_document`: each chunk is embedded (the `try`
around `_embed_text` turns a raised exception into `embedding = None`) and a
`DocumentChunk` row is added with the running index; after the loop the
document's `chunk_count` is set to `len(chunks)`.  The embedding oracle
`embed i chunk` is `some v` when `_embed_text` returns `v` on that call and
`none` when it raises. -/

/-- The `for i, chunk in enumerate(chunks)` body, from index `i`. -/
def ingestLoop (docId : Nat) (embed : Nat → String → Option (List Int)) :
    List String → Nat → List DocumentChunkRow
  | [], _ => []
  | c :: rest, i =>
    ⟨docId, c, embed i c, i⟩ :: ingestLoop docId embed rest (i + 1)

/-- The chunk rows persisted by `ingest_document` together with the
`chunk_count` value committed at the end. -/
def ingestDocument (docId : Nat) (chunks : List String)
    (embed : Nat → String → Option (List Int)) :
    List DocumentChunkRow × Nat :=
  (ingestLoop docId embed chunks 0, chunks.length)

/-! ## Upload quota loop (backend/rag/router.py `upload_documents` and
backend/rag/shared_router.py `upload_shared_documents`)

Both endpoints run the same per-file loop: skip files whose extension is not
allowed, reject with HTTP 413 when `current_usage + file_size` would exceed
`STORAGE_LIMIT_BYTES` (aborting the request; files already accepted stay
committed), abort with HTTP 500 when the blob upload fails, otherwise commit
the document row and add its size to the running usage.  The extension test
`os.path.splitext(filename)[1].lower() in ALLOWED_EXTENSIONS` and the blob
upload outcome are abstracted into per-file booleans. -/

/-- The fixed per-scope byte ceiling, `512 * 1024 * 1024`. -/
def STORAGE_LIMIT_BYTES : Nat := 512 * 1024 * 1024

structure IncomingFile where
  /-- the extension is in `ALLOWED_EXTENSIONS` (`.pdf .docx .doc .txt .md`). -/
  allowedExt : Bool
  /-- `len(file_bytes)`. -/
  size : Nat
  /-- `rag_storage.upload_file` succeeds for this file. -/
  storageOk : Bool
deriving DecidableEq

inductive UploadOutcome where
  /-- all files processed, response returned. -/
  | completed
  /-- HTTP 413: storage limit exceeded. -/
  | quotaRejected
  /-- HTTP 500: blob upload failed. -/
  | storageFailed
deriving DecidableEq

/-- The upload loop: returns the usage recorded when the request ends (the
sum of the committed document sizes) and how it ended. -/
def uploadLoop (limit : Nat) : List IncomingFile → Nat → Nat × UploadOutcome
  | [], usage => (usage, .completed)
  | f :: rest, usage =>
    if f.allowedExt = false then uploadLoop limit rest usage
    else if limit < usage + f.size then (usage, .quotaRejected)
    else if f.storageOk = false then (usage, .storageFailed)
    else uploadLoop limit rest (usage + f.size)

/-- `upload_documents` / `upload_shared_documents`, starting from the
scope's already-persisted usage. -/
def uploadDocuments (files : List IncomingFile) (persistedUsage : Nat) :
    Nat × UploadOutcome :=
  uploadLoop STORAGE_LIMIT_BYTES files persistedUsage

/-! ## Prompt assembly (`build_rag_system_prompt` in backend/rag/retrieval.py) -/

/-- The fixed text inserted between the base prompt and the context. -/
def contextHeader : String :=
  "\n\n" ++
  "Use the following document excerpts to answer the user's question. " ++
  "When referencing specific information, cite its source using " ++
  "[Source: filename].\n\n" ++ "CONTEXT:\n"

/-- `build_rag_system_prompt(base_prompt, context_str)`. -/
def buildRagSystemPrompt (basePrompt contextStr : String) : String :=
  if contextStr = "" then basePrompt
  else basePrompt ++ contextHeader ++ contextStr

/-! ## Theorems -/

/-- Helper: length of the rows produced by `ingestLoop`. -/
lemma ingestLoop_length (docId : Nat) (embed : Nat → String → Option (List Int)) :
    ∀ (chunks : List String) (i : Nat),
      (ingestLoop docId embed chunks i).length = chunks.length := by
  intro chunks
  induction chunks with
  | nil => intro i; rfl
  | cons c rest ih => intro i; simp [ingestLoop, ih]

/-- Helper: the k-th row produced by `ingestLoop` starting at index `i`. -/
lemma ingestLoop_get (docId : Nat) (embed : Nat → String → Option (List Int)) :
    ∀ (chunks : List String) (i k : Nat) (c : String),
      chunks.get? k = some c →
        (ingestLoop docId embed chunks i).get? k =
          some ⟨docId, c, embed (i + k) c, i + k⟩ := by
  intro chunks
  induction chunks with
  | nil => intro i k c h; simp at h
  | cons c0 rest ih =>
    intro i k c h
    cases k with
    | zero => simp_all [ingestLoop]
    | succ k =>
      simp only [List.get?_cons_succ] at h
      have h2 := ih (i + 1) k c h
      simp only [ingestLoop, List.get?_cons_succ]
      rw [show i + (k + 1) = i + 1 + k from by omega]
      exact h2

/-- C6: an embedding failure on an individual chunk does not abort the
ingestion run: every chunk is persisted in order (a failed chunk with a null
embedding vector), and the committed `chunk_count` is the total number of
chunks produced, independent of how many embeddings succeeded. -/
theorem C6_embedding_failure_does_not_abort (docId : Nat)
    (chunks : List String) (embed : Nat → String → Option (List Int))
    (hne : chunks ≠ []) :
    (ingestDocument docId chunks embed).1.length = chunks.length ∧
    (∀ k c, chunks.get? k = some c →
      (ingestDocument docId chunks embed).1.get? k =
        some ⟨docId, c, embed k c, k⟩) ∧
    (ingestDocument docId chunks embed).2 = chunks.length := by
  refine ⟨ingestLoop_length docId embed chunks 0, ?_, rfl⟩
  intro k c h
  simpa using ingestLoop_get docId embed chunks 0 k c h

/-- Witness for C6 at a concrete two-chunk run whose second embedding fails. -/
theorem C6_witness :
    (ingestDocument 7 ["alpha", "beta"]
      (fun i _ => if i = 0 then some [1] else none)).1.length = 2 ∧
    (∀ k c, (["alpha", "beta"] : List String).get? k = some c →
      (ingestDocument 7 ["alpha", "beta"]
        (fun i _ => if i = 0 then some [1] else none)).1.get? k =
          some ⟨7, c, (fun i _ => if i = 0 then some [1] else none) k c, k⟩) ∧
    (ingestDocument 7 ["alpha", "beta"]
      (fun i _ => if i = 0 then some [1] else none)).2 = 2 :=
  C6_embedding_failure_does_not_abort 7 ["alpha", "beta"]
    (fun i _ => if i = 0 then some [1] else none) (by decide)

/-- Helper: the upload loop keeps the recorded usage at or under the limit. -/
lemma uploadLoop_le (limit : Nat) :
    ∀ (files : List IncomingFile) (usage : Nat), usage ≤ limit →
      (uploadLoop limit files usage).1 ≤ limit := by
  intro files
  induction files with
  | nil => intro usage h; exact h
  | cons f rest ih =>
    intro usage h
    unfold uploadLoop
    by_cases hext : f.allowedExt = false
    · simp only [hext, if_true]
      exact ih usage h
    · simp only [hext, if_false]
      by_cases hq : limit < usage + f.size
      · simp only [hq, if_true]
        exact h
      · simp only [hq, if_false]
        by_cases hs : f.storageOk = false
        · simp only [hs, if_true]
          exact h
        · simp only [hs, if_false]
          exact ih (usage + f.size) (by omega)

/-- C9: each incoming file is checked against the per-scope byte ceiling
using the usage recorded so far plus the file's size; an over-ceiling file is
rejected with the usage unchanged, so the recorded usage never exceeds the
quota at upload-acceptance time (same loop in `upload_documents` and
`upload_shared_documents`). -/
theorem C9_quota_invariant (files : List IncomingFile) (usage : Nat)
    (h : usage ≤ STORAGE_LIMIT_BYTES) :
    (uploadDocuments files usage).1 ≤ STORAGE_LIMIT_BYTES ∧
    (∀ f rest, f.allowedExt = true →
      STORAGE_LIMIT_BYTES < usage + f.size →
        uploadDocuments (f :: rest) usage = (usage, .quotaRejected)) := by
  refine ⟨uploadLoop_le STORAGE_LIMIT_BYTES files usage h, ?_⟩
  intro f rest hext hq
  simp [uploadDocuments, uploadLoop, hext, hq]

/-- Witness for C9: an in-quota file accepted, then an over-quota file
rejected with the recorded usage still under the ceiling. -/
theorem C9_witness :
    (uploadDocuments [⟨true, 100, true⟩] 0).1 ≤ STORAGE_LIMIT_BYTES ∧
    (∀ f rest, f.allowedExt = true → STORAGE_LIMIT_BYTES < 0 + f.size →
      uploadDocuments (f :: rest) 0 = (0, .quotaRejected)) :=
  C9_quota_invariant [⟨true, 100, true⟩] 0 (by decide)

/-- C7: `retrieve_context` degrades to the empty result — empty context
string and empty citation list — when no embedding credential is configured,
when the query-embedding call fails, or when the similarity query fails. -/
theorem C7_retrieval_degrades_to_empty (env : RetrievalEnv) (db : Database)
    (userEmail : String) (isAdmin : Bool) (topK : Nat) :
    (env.apiKeyConfigured = false →
      retrieveContext env db userEmail isAdmin topK = ("", [])) ∧
    (env.embedQueryResult = none →
      retrieveContext env db userEmail isAdmin topK = ("", [])) ∧
    (env.dbOk = false →
      retrieveContext env db userEmail isAdmin topK = ("", [])) := by
  refine ⟨?_, ?_, ?_⟩ <;> intro h <;>
    simp only [retrieveContext, h] <;> (repeat' split) <;> simp_all

/-- Witness for C7 at an environment with no key, a failed query embedding
and a failed database query. -/
theorem C7_witness :
    retrieveContext ⟨false, none, false, fun _ => 0⟩
      ⟨[], [], [], [], [], [], []⟩ "user@example.com" false 5 = ("", []) :=
  (C7_retrieval_degrades_to_empty ⟨false, none, false, fun _ => 0⟩
    ⟨[], [], [], [], [], [], []⟩ "user@example.com" false 5).1 rfl

/-- C10: `build_rag_system_prompt` is the identity on an empty context, and
for a non-empty context returns the base prompt followed by the fixed
instruction header and the context block. -/
theorem C10_prompt_assembly :
    (∀ basePrompt, buildRagSystemPrompt basePrompt "" = basePrompt) ∧
    (∀ basePrompt contextStr, contextStr ≠ "" →
      buildRagSystemPrompt basePrompt contextStr =
        basePrompt ++ contextHeader ++ contextStr) := by
  constructor
  · intro b
    simp [buildRagSystemPrompt]
  · intro b c h
    simp [buildRagSystemPrompt, h]

/-- Witness for C10 at concrete prompts. -/
theorem C10_witness :
    buildRagSystemPrompt "You are a helpful assistant." "" =
      "You are a helpful assistant." ∧
    buildRagSystemPrompt "BASE" "chunk text" =
      "BASE" ++ contextHeader ++ "chunk text" :=
  ⟨C10_prompt_assembly.1 "You are a helpful assistant.",
   C10_prompt_assembly.2 "BASE" "chunk text" (by decide)⟩

/-- Helper: with `size ≤ overlap` the truncated advance `size - overlap` is
zero, so the window start never reaches the word count, the loop guard stays
true, and no amount of fuel finishes the loop (the Python start is frozen at
`size = overlap` and moves backwards at `size < overlap`; it never exits in
either case). -/
lemma chunkLoop_frozen (words : List String) (size overlap : Nat)
    (hso : size ≤ overlap) :
    ∀ fuel i acc, i < words.length →
      chunkLoop words size overlap fuel i acc = none := by
  intro fuel
  induction fuel with
  | zero => intro i acc _; rfl
  | succ fuel ih =>
    intro i acc h
    simp only [chunkLoop, if_pos h]
    rw [show size - overlap = 0 from by omega, show i + 0 = i from by omega]
    exact ih i _ h

/-- Helper: with `overlap < size` the start strictly advances, so fuel
exceeding the remaining word count completes the loop. -/
lemma chunkLoop_completes (words : List String) (size overlap : Nat)
    (hso : overlap < size) :
    ∀ fuel i acc, words.length - i < fuel →
      ∃ cs, chunkLoop words size overlap fuel i acc = some cs := by
  intro fuel
  induction fuel with
  | zero => intro i acc h; exact absurd h (Nat.not_lt_zero _)
  | succ fuel ih =>
    intro i acc h
    by_cases hi : i < words.length
    · simp only [chunkLoop, if_pos hi]
      exact ih (i + (size - overlap)) _ (by omega)
    · exact ⟨acc, by simp [chunkLoop, hi]⟩

/-- C4 counterexample: on a one-word input with `size = overlap = 1` (and
likewise `size = 1 < overlap = 2`) the chunker does not reject the
parameters — the loop runs forever (no fuel amount finishes it), so
`_chunk_text` never returns. -/
theorem C4_counterexample :
    (chunkDiverges ["a"] 1 1 ∧ chunkText ["a"] 1 1 = none) ∧
    (chunkDiverges ["a"] 1 2 ∧ chunkText ["a"] 1 2 = none) :=
  ⟨⟨fun fuel i acc hi => chunkLoop_frozen ["a"] 1 1 (by omega) fuel i acc hi,
    by decide⟩,
   ⟨fun fuel i acc hi => chunkLoop_frozen ["a"] 1 2 (by omega) fuel i acc hi,
    by decide⟩⟩

/-- C4 amended: `_chunk_text` performs no parameter validation; for
`size ≤ overlap` on a non-empty word list the loop never terminates (the
start never advances past the word count), while under the precondition
`overlap < size` it terminates for every input because the window start
strictly advances each iteration. -/
theorem C4_chunker_termination (words : List String) (size overlap : Nat)
    (hw : words ≠ []) :
    (size ≤ overlap → chunkDiverges words size overlap) ∧
    (overlap < size → ∃ cs, chunkText words size overlap = some cs) := by
  constructor
  · intro hso
    exact fun fuel i acc hi =>
      chunkLoop_frozen words size overlap hso fuel i acc hi
  · intro h
    exact chunkLoop_completes words size overlap h (words.length + 1) 0 []
      (by omega)

/-- Witness for C4: the loop terminates at `size = 2, overlap = 1`. -/
theorem C4_witness : ∃ cs, chunkText ["a", "b"] 2 1 = some cs :=
  (C4_chunker_termination ["a", "b"] 2 1 (by decide)).2 (by omega)

/-- The duration passed to `time.sleep`: the server-suggested delay when the
error body carries one, floored at the current backoff value. -/
def sleepFor (sug : Option Nat) (floor : Nat) : Nat :=
  match sug with
  | some s => max s floor
  | none => floor

/-- The five sleeps of a run whose first five attempts are rate-limited with
suggested delays `sug`: backoff floors 30, 60, 120, 120, 120. -/
def sleeps5 (sug : Nat → Option Nat) : List Nat :=
  [sleepFor (sug 0) 30, sleepFor (sug 1) 60, sleepFor (sug 2) 120,
   sleepFor (sug 3) 120, sleepFor (sug 4) 120]

/-- Helper: the loop makes at most as many attempts as it has remaining. -/
lemma embedLoop_attempts_le (responses : Nat → EmbedResponse α) :
    ∀ r attempt wait, (embedLoop responses r attempt wait).attempts ≤ r := by
  intro r
  induction r with
  | zero => intro attempt wait; simp [embedLoop]
  | succ r ih =>
    intro attempt wait
    rcases hresp : responses attempt with sug | v | _ <;>
      simp only [embedLoop, hresp]
    · by_cases hr : 0 < r
      · have := ih (attempt + 1) (min (wait * 2) 120)
        simp only [if_pos hr]
        omega
      · simp [hr]
    · simp
    · simp

/-- Helper: unfolding one rate-limited non-final attempt. -/
lemma embedLoop_step_rl (responses : Nat → EmbedResponse α)
    (r attempt wait : Nat) (sug : Option Nat) (hr : 0 < r)
    (h : responses attempt = .rateLimited sug) :
    embedLoop responses (r + 1) attempt wait =
      ⟨(embedLoop responses r (attempt + 1) (min (wait * 2) 120)).result,
       sleepFor sug wait ::
         (embedLoop responses r (attempt + 1) (min (wait * 2) 120)).sleeps,
       (embedLoop responses r (attempt + 1) (min (wait * 2) 120)).attempts
         + 1⟩ := by
  simp only [embedLoop, h, if_pos hr]
  cases sug <;> rfl

/-- Helper: unfolding a successful attempt. -/
lemma embedLoop_step_ok (responses : Nat → EmbedResponse α)
    (r attempt wait : Nat) (v : α) (h : responses attempt = .ok v) :
    embedLoop responses (r + 1) attempt wait = ⟨.success v, [], 1⟩ := by
  simp [embedLoop, h]

/-- Helper: unfolding a rate-limited final attempt. -/
lemma embedLoop_step_rl_last (responses : Nat → EmbedResponse α)
    (attempt wait : Nat) (sug : Option Nat)
    (h : responses attempt = .rateLimited sug) :
    embedLoop responses 1 attempt wait = ⟨.rateLimitError, [], 1⟩ := by
  simp [embedLoop, h]

/-- C5 amended: at most 6 attempts are ever made; given 5 consecutive
rate-limit responses each sleep is the maximum of the server-suggested
delay (when present) and the backoff floor, the floors being 30, 60, 120,
120, 120 (30 doubling up to the 120 cap) — so the sleeps are exactly
30, 60, 120, 120, 120 and monotonically non-decreasing when no suggestion
is present; a 6th rate-limited attempt fails with a rate-limit error
surfaced to the caller. -/
theorem C5_retry_policy (responses : Nat → EmbedResponse α)
    (sug : Nat → Option Nat) (v : α) :
    (embedText responses 6).attempts ≤ 6 ∧
    ((∀ k, k < 5 → responses k = .rateLimited (sug k)) →
      (responses 5 = .ok v →
        embedText responses 6 = ⟨.success v, sleeps5 sug, 6⟩) ∧
      (responses 5 = .rateLimited (sug 5) →
        embedText responses 6 = ⟨.rateLimitError, sleeps5 sug, 6⟩)) ∧
    ((∀ k, sug k = none) → sleeps5 sug = [30, 60, 120, 120, 120]) := by
  refine ⟨embedLoop_attempts_le responses 6 0 30, ?_, ?_⟩
  · intro h5
    have e0 := h5 0 (by omega)
    have e1 := h5 1 (by omega)
    have e2 := h5 2 (by omega)
    have e3 := h5 3 (by omega)
    have e4 := h5 4 (by omega)
    have s1 : embedText responses 6 =
        (⟨(embedLoop responses 5 1 60).result,
          sleepFor (sug 0) 30 :: (embedLoop responses 5 1 60).sleeps,
          (embedLoop responses 5 1 60).attempts + 1⟩ : RetryTrace α) :=
      embedLoop_step_rl responses 5 0 30 (sug 0) (by omega) e0
    have s2 : embedLoop responses 5 1 60 =
        (⟨(embedLoop responses 4 2 120).result,
          sleepFor (sug 1) 60 :: (embedLoop responses 4 2 120).sleeps,
          (embedLoop responses 4 2 120).attempts + 1⟩ : RetryTrace α) :=
      embedLoop_step_rl responses 4 1 60 (sug 1) (by omega) e1
    have s3 : embedLoop responses 4 2 120 =
        (⟨(embedLoop responses 3 3 120).result,
          sleepFor (sug 2) 120 :: (embedLoop responses 3 3 120).sleeps,
          (embedLoop responses 3 3 120).attempts + 1⟩ : RetryTrace α) :=
      embedLoop_step_rl responses 3 2 120 (sug 2) (by omega) e2
    have s4 : embedLoop responses 3 3 120 =
        (⟨(embedLoop responses 2 4 120).result,
          sleepFor (sug 3) 120 :: (embedLoop responses 2 4 120).sleeps,
          (embedLoop responses 2 4 120).attempts + 1⟩ : RetryTrace α) :=
      embedLoop_step_rl responses 2 3 120 (sug 3) (by omega) e3
    have s5 : embedLoop responses 2 4 120 =
        (⟨(embedLoop responses 1 5 120).result,
          sleepFor (sug 4) 120 :: (embedLoop responses 1 5 120).sleeps,
          (embedLoop responses 1 5 120).attempts + 1⟩ : RetryTrace α) :=
      embedLoop_step_rl responses 1 4 120 (sug 4) (by omega) e4
    constructor
    · intro h6
      have sfin : embedLoop responses 1 5 120 = ⟨.success v, [], 1⟩ :=
        embedLoop_step_ok responses 0 5 120 v h6
      rw [s1, s2, s3, s4, s5, sfin]
      rfl
    · intro h6
      have sfin : embedLoop responses 1 5 120 = ⟨.rateLimitError, [], 1⟩ :=
        embedLoop_step_rl_last responses 5 120 (sug 5) h6
      rw [s1, s2, s3, s4, s5, sfin]
      rfl
  · intro hnone
    simp [sleeps5, sleepFor, hnone 0, hnone 1, hnone 2, hnone 3, hnone 4]

/-- Five plain 429s then success, for the C5 witness. -/
def c5wResponses : Nat → EmbedResponse Nat := fun k =>
  if k < 5 then .rateLimited none else .ok 42

/-- Witness for C5 at five plain rate limits followed by success: exactly
the five floor sleeps, six attempts, success surfaced. -/
theorem C5_witness :
    (embedText c5wResponses 6).attempts ≤ 6 ∧
    embedText c5wResponses 6 = ⟨.success 42, [30, 60, 120, 120, 120], 6⟩ := by
  have h := C5_retry_policy c5wResponses (fun _ => none) 42
  refine ⟨h.1, ?_⟩
  have hs := (h.2.1 (fun k hk => by simp [c5wResponses, hk])).1
    (by simp [c5wResponses])
  rw [hs, h.2.2 (fun _ => rfl)]

/-- A large server-suggested delay on the first 429 followed by plain 429s,
for the C5 counterexample. -/
def c5cResponses : Nat → EmbedResponse Nat := fun k =>
  if k = 0 then .rateLimited (some 200)
  else if k < 5 then .rateLimited none
  else .ok 42

/-- C5 counterexample: with a 200-second server-suggested delay on the
first rate-limited attempt the five sleeps are 200, 60, 120, 120, 120 —
not monotonically non-decreasing as the claim states. -/
theorem C5_counterexample :
    (embedText c5cResponses 6).sleeps = [200, 60, 120, 120, 120] ∧
    ¬ List.Sorted (· ≤ ·) (embedText c5cResponses 6).sleeps := by
  constructor
  · decide
  · intro h
    rw [show (embedText c5cResponses 6).sleeps = [200, 60, 120, 120, 120]
      from by decide] at h
    exact absurd (List.rel_of_sorted_cons h 60 (by decide)) (by decide)

/-- The word window starting at `i`: `words[i : i + size]`. -/
def windowAt (words : List String) (size i : Nat) : List String :=
  (words.drop i).take size

/-- Helper: `ceilDiv 0 b = 0` for positive `b`. -/
lemma ceilDiv_zero_left (b : Nat) (hb : 0 < b) : ceilDiv 0 b = 0 := by
  unfold ceilDiv
  exact Nat.div_eq_of_lt (by omega)

/-- Helper: peeling one step off a ceiling division. -/
lemma ceilDiv_step (d step : Nat) (hstep : 0 < step) (hd : 0 < d) :
    ceilDiv d step = ceilDiv (d - step) step + 1 := by
  unfold ceilDiv
  rw [show d + step - 1 = (d - 1) + step from by omega,
    Nat.add_div_right _ hstep]
  by_cases hds : step ≤ d
  · rw [show d - step + step - 1 = d - 1 from by omega]
  · rw [show d - step = 0 from by omega,
      Nat.div_eq_of_lt (show d - 1 < step from by omega),
      Nat.div_eq_of_lt (show 0 + step - 1 < step from by omega)]

/-- Helper: `ceilDiv d step < d + 1` for positive `step`. -/
lemma ceilDiv_lt_succ (d step : Nat) (hstep : 0 < step) :
    ceilDiv d step < d + 1 := by
  unfold ceilDiv
  rw [Nat.div_lt_iff_lt_mul hstep]
  have hd : d ≤ d * step := Nat.le_mul_of_pos_right d hstep
  have he : (d + 1) * step = d * step + step := by ring
  omega

/-- Helper: a window starting inside a word list passes the non-blank guard. -/
lemma windowNonBlank_of (words : List String) (hw : isWordList words)
    (size i : Nat) (hsize : 0 < size) (hi : i < words.length) :
    windowNonBlank ((words.drop i).take size) = true := by
  obtain ⟨w, t, hwt⟩ : ∃ w t, words.drop i = w :: t := by
    cases hdrop : words.drop i with
    | nil =>
      exfalso
      have := List.length_drop i words
      rw [hdrop] at this
      simp at this
      omega
    | cons w t => exact ⟨w, t, rfl⟩
  have hwmem : w ∈ words :=
    List.mem_of_mem_drop (hwt ▸ List.mem_cons_self w t)
  obtain ⟨hne, hns⟩ := hw w hwmem
  obtain ⟨c, hc⟩ : ∃ c, c ∈ w.data := by
    cases hd : w.data with
    | nil => exact absurd hd hne
    | cons c cs => exact ⟨c, by simp [hd]⟩
  rw [hwt]
  cases size with
  | zero => omega
  | succ s =>
    rw [List.take_succ_cons]
    simp only [windowNonBlank, List.any_cons, Bool.or_eq_true]
    left
    exact List.any_eq_true.mpr ⟨c, hc, by rw [hns c hc]; rfl⟩

/-- Helper: full characterization of the chunker loop for `overlap < size`
on a genuine word list: it returns the word windows at starts
`i, i + step, i + 2 * step, ...` with `step = size - overlap`, one window
per remaining `ceilDiv` step. -/
lemma chunkLoop_eq_map (words : List String) (size overlap : Nat)
    (hso : overlap < size) (hw : isWordList words) :
    ∀ fuel i acc, ceilDiv (words.length - i) (size - overlap) < fuel →
      chunkLoop words size overlap fuel i acc =
        some (acc ++
          (List.range (ceilDiv (words.length - i) (size - overlap))).map
            fun k => windowAt words size (i + k * (size - overlap))) := by
  intro fuel
  induction fuel with
  | zero => intro i acc h; exact absurd h (Nat.not_lt_zero _)
  | succ fuel ih =>
    intro i acc h
    have hstep0 : 0 < size - overlap := by omega
    by_cases hi : i < words.length
    · have hguard := windowNonBlank_of words hw size i (by omega) hi
      have hrec : ceilDiv (words.length - i) (size - overlap) =
          ceilDiv (words.length - (i + (size - overlap))) (size - overlap)
            + 1 := by
        rw [ceilDiv_step _ _ hstep0 (by omega),
          show words.length - i - (size - overlap) =
            words.length - (i + (size - overlap)) from by omega]
      simp only [chunkLoop, if_pos hi, hguard, if_true]
      rw [ih (i + (size - overlap)) (acc ++ [(words.drop i).take size])
        (by omega)]
      rw [hrec, List.range_succ_eq_map, List.map_cons, List.map_map]
      have hx : (fun k => windowAt words size (i + k * (size - overlap)))
            ∘ Nat.succ =
          fun a => windowAt words size
            (i + (size - overlap) + a * (size - overlap)) := by
        funext a
        simp only [Function.comp_apply, windowAt]
        rw [show i + Nat.succ a * (size - overlap) =
            i + (size - overlap) + a * (size - overlap) from by
          rw [Nat.succ_mul]; omega]
      rw [hx]
      simp [windowAt, List.append_assoc]
    · rw [show words.length - i = 0 from by omega, ceilDiv_zero_left _ hstep0]
      simp [chunkLoop, hi]

set_option maxRecDepth 8000 in
/-- C3 counterexample: a 500-word text yields 2 chunks (the loop guard is
`i < len(words)`, giving `ceil(W / 462)` windows), while the claimed formula
`ceil(max(W - 50, 0) / 462)` predicts 1. -/
theorem C3_counterexample :
    (chunkText (List.replicate 500 "a") 512 50).map List.length = some 2 ∧
    ceilDiv (max (500 - 50) 0) 462 = 1 := by decide

/-- C3 amended: for a word list of `W` words, chunking with `size = 512`,
`overlap = 50` terminates and produces exactly `ceil(W / 462)` chunks (0 for
`W = 0`); consecutive chunks overlap in the segment
`chunk k drop 462 = chunk (k+1) take 50`, whose length is
`min 50 (W - 462 * (k + 1))` — exactly 50 words whenever the earlier chunk
has the full 512 words (the last pair may share fewer). -/
theorem C3_chunk_count_and_overlap (words : List String)
    (hw : isWordList words) :
    ∃ cs, chunkText words 512 50 = some cs ∧
      cs.length = ceilDiv words.length 462 ∧
      (words.length = 0 → cs = []) ∧
      ∀ k wk wk1, cs.get? k = some wk → cs.get? (k + 1) = some wk1 →
        wk.drop 462 = wk1.take 50 ∧
        (wk.drop 462).length = min 50 (words.length - (k + 1) * 462) ∧
        (wk.length = 512 → (wk.drop 462).length = 50) := by
  have hmain := chunkLoop_eq_map words 512 50 (by omega) hw
    (words.length + 1) 0 [] (ceilDiv_lt_succ words.length 462 (by omega))
  rw [show (512 : Nat) - 50 = 462 from rfl] at hmain
  simp only [Nat.sub_zero, Nat.zero_add, zero_add, List.nil_append] at hmain
  refine ⟨_, hmain, ?_, ?_, ?_⟩
  · simp
  · intro h0
    simp [h0, ceilDiv_zero_left 462 (by omega)]
  · intro k wk wk1 hk hk1
    have hklen : k + 1 < ceilDiv words.length 462 := by
      obtain ⟨hlt, _⟩ := List.get?_eq_some.mp hk1
      simpa using hlt
    have h1 : ((List.range (ceilDiv words.length 462)).map
        fun k => windowAt words 512 (k * 462)).get? k =
          some (windowAt words 512 (k * 462)) := by
      rw [List.get?_map, List.get?_range (by omega)]
      rfl
    have h2 : ((List.range (ceilDiv words.length 462)).map
        fun k => windowAt words 512 (k * 462)).get? (k + 1) =
          some (windowAt words 512 ((k + 1) * 462)) := by
      rw [List.get?_map, List.get?_range (by omega)]
      rfl
    have hwk : wk = windowAt words 512 (k * 462) :=
      (Option.some.inj (h1.symm.trans hk)).symm
    have hwk1 : wk1 = windowAt words 512 ((k + 1) * 462) :=
      (Option.some.inj (h2.symm.trans hk1)).symm
    subst hwk
    subst hwk1
    have hdt : (windowAt words 512 (k * 462)).drop 462 =
        (words.drop ((k + 1) * 462)).take 50 := by
      simp only [windowAt]
      rw [List.drop_take, List.drop_drop]
      rw [show (512 : Nat) - 462 = 50 from rfl,
        show k * 462 + 462 = (k + 1) * 462 from by ring]
    have htt : (windowAt words 512 ((k + 1) * 462)).take 50 =
        (words.drop ((k + 1) * 462)).take 50 := by
      simp only [windowAt]
      rw [List.take_take]
      norm_num
    refine ⟨hdt.trans htt.symm, ?_, ?_⟩
    · rw [hdt]
      simp [List.length_take, List.length_drop]
    · intro hfull
      have hlen : (windowAt words 512 (k * 462)).length =
          min 512 (words.length - k * 462) := by
        simp [windowAt, List.length_take, List.length_drop]
      rw [hlen] at hfull
      rw [hdt]
      simp only [List.length_take, List.length_drop]
      have he : (k + 1) * 462 = k * 462 + 462 := by ring
      omega

/-- Witness for C3 at a concrete three-word text: one chunk, no pairs. -/
theorem C3_witness :
    ∃ cs, chunkText ["alpha", "beta", "gamma"] 512 50 = some cs ∧
      cs.length =
        ceilDiv (["alpha", "beta", "gamma"] : List String).length 462 ∧
      ((["alpha", "beta", "gamma"] : List String).length = 0 → cs = []) ∧
      ∀ k wk wk1, cs.get? k = some wk → cs.get? (k + 1) = some wk1 →
        wk.drop 462 = wk1.take 50 ∧
        (wk.drop 462).length =
          min 50 ((["alpha", "beta", "gamma"] : List String).length
            - (k + 1) * 462) ∧
        (wk.length = 512 → (wk.drop 462).length = 50) :=
  C3_chunk_count_and_overlap ["alpha", "beta", "gamma"]
    (by unfold isWordList; decide)

/-- Helper: membership in the personal subquery rows. -/
lemma mem_personalRows {db : Database} {userEmail : String}
    {dist : List Int → Rat} {p : ResultRow × Rat}
    (h : p ∈ personalRows db userEmail dist) :
    ∃ dc ∈ db.chunks, ∃ d ∈ db.documents, ∃ v, dc.embedding = some v ∧
      dc.documentId = d.id ∧ d.userEmail = userEmail ∧ d.isActive = true ∧
      p = (⟨dc.content, dc.chunkIndex, dc.documentId, d.originalFilename,
        .personal⟩, dist v) := by
  simp only [personalRows, List.mem_flatMap] at h
  obtain ⟨dc, hdc, d, hd, hp⟩ := h
  split at hp
  · simp at hp
  · rename_i v hemb
    split at hp
    · rename_i hcond
      simp only [List.mem_singleton] at hp
      exact ⟨dc, hdc, d, hd, v, hemb, hcond.1, hcond.2.1, hcond.2.2, hp⟩
    · simp at hp

/-- Helper: membership in the regular-caller shared subquery rows. -/
lemma mem_sharedRowsUser {db : Database} {userEmail : String}
    {dist : List Int → Rat} {p : ResultRow × Rat}
    (h : p ∈ sharedRowsUser db userEmail dist) :
    ∃ sc ∈ db.sharedChunks, ∃ sd ∈ db.sharedDocs, ∃ sf ∈ db.sharedFolders,
      ∃ u ∈ db.users, ∃ v, sc.embedding = some v ∧
        sc.documentId = sd.id ∧ sd.folderId = sf.id ∧
        u.email = userEmail ∧
        deptMatches u.department sf.department = true ∧
        sd.isVisible = true ∧
        hasOptOut db userEmail sc.documentId = false ∧
        p = (⟨sc.content, sc.chunkIndex, sc.documentId, sd.originalFilename,
          .shared⟩, dist v) := by
  simp only [sharedRowsUser, List.mem_flatMap] at h
  obtain ⟨sc, hsc, sd, hsd, sf, hsf, u, hu, hp⟩ := h
  split at hp
  · simp at hp
  · rename_i v hemb
    split at hp
    · rename_i hcond
      simp only [List.mem_singleton] at hp
      obtain ⟨h1, h2, h3, h4, h5, h6⟩ := hcond
      exact ⟨sc, hsc, sd, hsd, sf, hsf, u, hu, v, hemb, h1, h2, h3, h4, h5,
        by simpa using h6, hp⟩
    · simp at hp

/-- Helper: membership in the admin shared subquery rows. -/
lemma mem_sharedRowsAdmin {db : Database} {userEmail : String}
    {dist : List Int → Rat} {p : ResultRow × Rat}
    (h : p ∈ sharedRowsAdmin db userEmail dist) :
    ∃ sc ∈ db.sharedChunks, ∃ sd ∈ db.sharedDocs, ∃ v,
      sc.embedding = some v ∧ sc.documentId = sd.id ∧ sd.isVisible = true ∧
      hasOptOut db userEmail sc.documentId = false ∧
      p = (⟨sc.content, sc.chunkIndex, sc.documentId, sd.originalFilename,
        .shared⟩, dist v) := by
  simp only [sharedRowsAdmin, List.mem_flatMap] at h
  obtain ⟨sc, hsc, sd, hsd, hp⟩ := h
  split at hp
  · simp at hp
  · rename_i v hemb
    split at hp
    · rename_i hcond
      simp only [List.mem_singleton] at hp
      exact ⟨sc, hsc, sd, hsd, v, hemb, hcond.1, hcond.2.1,
        by simpa using hcond.2.2, hp⟩
    · simp at hp

/-- Helper: every eligible admin-scope shared chunk is in the admin
candidate set. -/
lemma mem_sharedRowsAdmin_intro {db : Database} {userEmail : String}
    {dist : List Int → Rat} {sc : SharedDocumentChunkRow}
    {sd : SharedDocumentRow} {v : List Int}
    (hsc : sc ∈ db.sharedChunks) (hsd : sd ∈ db.sharedDocs)
    (hemb : sc.embedding = some v) (hid : sc.documentId = sd.id)
    (hvis : sd.isVisible = true)
    (hopt : hasOptOut db userEmail sc.documentId = false) :
    (⟨sc.content, sc.chunkIndex, sc.documentId, sd.originalFilename,
      .shared⟩, dist v) ∈ sharedRowsAdmin db userEmail dist := by
  simp only [sharedRowsAdmin, List.mem_flatMap]
  refine ⟨sc, hsc, sd, hsd, ?_⟩
  simp only [hemb]
  rw [if_pos ⟨hid, hvis, by simp [hopt]⟩]
  simp

/-- Helper: every row returned by `retrieve_context` comes from the combined
candidate set of the caller's scope. -/
lemma mem_retrieveContext {env : RetrievalEnv} {db : Database}
    {userEmail : String} {isAdmin : Bool} {topK : Nat} {r : ResultRow}
    (h : r ∈ (retrieveContext env db userEmail isAdmin topK).2) :
    ∃ q, (r, q) ∈ combinedRows db userEmail isAdmin env.dist := by
  simp only [retrieveContext] at h
  split at h
  · simp at h
  · split at h
    · simp at h
    · split at h
      · simp at h
      · split at h
        · simp at h
        · obtain ⟨rq, hmem, hfst⟩ := List.mem_map.mp h
          obtain ⟨r2, q⟩ := rq
          cases hfst
          exact ⟨q, (List.perm_insertionSort distLE _).subset
            (List.mem_of_mem_take hmem)⟩

/-- Helper: splitting the combined rows of a regular caller. -/
lemma mem_combined_false {db : Database} {userEmail : String}
    {dist : List Int → Rat} {p : ResultRow × Rat}
    (h : p ∈ combinedRows db userEmail false dist) :
    p ∈ personalRows db userEmail dist ∨
      p ∈ sharedRowsUser db userEmail dist := by
  simp only [combinedRows] at h
  rcases List.mem_append.mp h with h1 | h2
  · exact Or.inl h1
  · right
    simpa using h2

/-- Helper: `deptMatches` holds exactly when the nullable user department is
present and equal to the folder department. -/
lemma deptMatches_iff (ud : Option String) (fd : String) :
    deptMatches ud fd = true ↔ ud = some fd := by
  cases ud <;> simp [deptMatches]

/-- C1: retrieval scope isolation.  A regular caller's results contain only
chunks of their own active personal documents or of visible shared documents
whose folder department equals the caller's department attribute; a caller
with no department attribute gets no shared chunks; and every embedded chunk
of a visible, not-opted-out shared document is in an admin caller's shared
candidate set regardless of department. -/
theorem C1_scope_isolation (env : RetrievalEnv) (db : Database)
    (userEmail : String) (topK : Nat) :
    (∀ r ∈ (retrieveContext env db userEmail false topK).2,
      (r.sourceType = .personal ∧ ∃ d ∈ db.documents, d.id = r.documentId ∧
        d.userEmail = userEmail ∧ d.isActive = true) ∨
      (r.sourceType = .shared ∧ ∃ sd ∈ db.sharedDocs, sd.id = r.documentId ∧
        sd.isVisible = true ∧
        hasOptOut db userEmail r.documentId = false ∧
        ∃ sf ∈ db.sharedFolders, sf.id = sd.folderId ∧
          ∃ u ∈ db.users, u.email = userEmail ∧
            u.department = some sf.department)) ∧
    ((∀ u ∈ db.users, u.email = userEmail → u.department = none) →
      ∀ r ∈ (retrieveContext env db userEmail false topK).2,
        r.sourceType = .personal) ∧
    (∀ sc ∈ db.sharedChunks, ∀ v, sc.embedding = some v →
      ∀ sd ∈ db.sharedDocs, sc.documentId = sd.id → sd.isVisible = true →
        hasOptOut db userEmail sc.documentId = false →
        (⟨sc.content, sc.chunkIndex, sc.documentId, sd.originalFilename,
          .shared⟩, env.dist v) ∈ sharedRowsAdmin db userEmail env.dist) := by
  refine ⟨?_, ?_, ?_⟩
  · intro r hr
    obtain ⟨q, hq⟩ := mem_retrieveContext hr
    rcases mem_combined_false hq with hp | hs
    · left
      obtain ⟨dc, _, d, hd, v, _, hdid, hdu, hda, hpe⟩ := mem_personalRows hp
      have hre : r = ⟨dc.content, dc.chunkIndex, dc.documentId,
          d.originalFilename, .personal⟩ := congrArg Prod.fst hpe
      subst hre
      exact ⟨rfl, d, hd, hdid.symm, hdu, hda⟩
    · right
      obtain ⟨sc, _, sd, hsd, sf, hsf, u, hu, v, _, hid, hfold, hue, hdm,
        hvis, hopt, hpe⟩ := mem_sharedRowsUser hs
      have hre : r = ⟨sc.content, sc.chunkIndex, sc.documentId,
          sd.originalFilename, .shared⟩ := congrArg Prod.fst hpe
      subst hre
      exact ⟨rfl, sd, hsd, hid.symm, hvis, hopt, sf, hsf, hfold.symm, u, hu,
        hue, (deptMatches_iff u.department sf.department).mp hdm⟩
  · intro hdept r hr
    obtain ⟨q, hq⟩ := mem_retrieveContext hr
    rcases mem_combined_false hq with hp | hs
    · obtain ⟨dc, _, d, _, v, _, _, _, _, hpe⟩ := mem_personalRows hp
      have hre : r = ⟨dc.content, dc.chunkIndex, dc.documentId,
          d.originalFilename, .personal⟩ := congrArg Prod.fst hpe
      subst hre
      rfl
    · exfalso
      obtain ⟨sc, _, sd, _, sf, _, u, hu, v, _, _, _, hue, hdm, _, _, _⟩ :=
        mem_sharedRowsUser hs
      rw [hdept u hu hue] at hdm
      simp [deptMatches] at hdm
  · intro sc hsc v hemb sd hsd hid hvis hopt
    exact mem_sharedRowsAdmin_intro hsc hsd hemb hid hvis hopt

/-- Database for the C1 witness: one active personal document of the caller
and one visible shared document with an embedded chunk, no opt-outs. -/
def c1Db : Database :=
  ⟨[⟨"u@example.com", some "Finance"⟩],
   [⟨1, "u@example.com", "notes.txt", true⟩],
   [⟨1, "personal chunk", some [1], 0⟩],
   [⟨1, "Finance"⟩],
   [⟨2, 1, "handbook.pdf", true, true⟩],
   [⟨2, "shared chunk", some [2], 0⟩],
   []⟩

/-- Environment for the C1 witness. -/
def c1Env : RetrievalEnv := ⟨true, some [0], true, fun _ => 0⟩

/-- Witness for C1: the eligible shared chunk of the witness database is in
the admin candidate set. -/
theorem C1_witness :
    ((⟨"shared chunk", 0, 2, "handbook.pdf", .shared⟩ : ResultRow),
      c1Env.dist [2]) ∈ sharedRowsAdmin c1Db "u@example.com" c1Env.dist :=
  (C1_scope_isolation c1Env c1Db "u@example.com" 5).2.2
    ⟨2, "shared chunk", some [2], 0⟩ (by decide) [2] rfl
    ⟨2, 1, "handbook.pdf", true, true⟩ (by decide) rfl rfl (by decide)

/-- Database for C2: a visible shared document whose document-level
`is_rag_active` flag is false, with an embedded chunk; one admin-style
caller with no department and one regular caller in the matching
department. -/
def c2Db : Database :=
  ⟨[⟨"admin@example.com", none⟩, ⟨"emp@example.com", some "Finance"⟩],
   [], [],
   [⟨1, "Finance"⟩],
   [⟨1, 1, "policy.pdf", true, false⟩],
   [⟨1, "secret chunk", some [3], 0⟩],
   []⟩

/-- Environment for C2. -/
def c2Env : RetrievalEnv := ⟨true, some [0], true, fun _ => 0⟩

/-- C2: evaluation at the failing input.  The shared document has
`is_rag_active = false`, yet its chunk is returned both to an admin caller
and to a regular caller of the matching department — the retrieval query
never filters on the document-level `is_rag_active` column in either
branch. -/
theorem C2_is_rag_active_not_filtered :
    (∃ sd ∈ c2Db.sharedDocs, sd.id = 1 ∧ sd.isRagActive = false) ∧
    (retrieveContext c2Env c2Db "admin@example.com" true 5).2 =
      [⟨"secret chunk", 0, 1, "policy.pdf", .shared⟩] ∧
    (retrieveContext c2Env c2Db "emp@example.com" false 5).2 =
      [⟨"secret chunk", 0, 1, "policy.pdf", .shared⟩] := by
  refine ⟨⟨⟨1, 1, "policy.pdf", true, false⟩, by decide, rfl, rfl⟩, ?_, ?_⟩
  · decide
  · decide

/-- C8: retrieval ranking.  The returned rows are the top-K rows by
ascending similarity distance across the combined personal-plus-shared
candidate set (not top-K per source): the ranked list is sorted by distance,
has `min topK n` rows for `n` candidates, every returned row's distance is
at most every omitted candidate's distance, and the endpoint's citation list
is exactly the ranked rows in rank order. -/
theorem C8_ranking (env : RetrievalEnv) (db : Database) (userEmail : String)
    (isAdmin : Bool) (topK : Nat) (v : List Int) :
    List.Pairwise distLE (rankedRows db userEmail isAdmin env.dist topK) ∧
    (rankedRows db userEmail isAdmin env.dist topK).length =
      min topK (combinedRows db userEmail isAdmin env.dist).length ∧
    (∃ rest, (combinedRows db userEmail isAdmin env.dist).Perm
        (rankedRows db userEmail isAdmin env.dist topK ++ rest) ∧
      ∀ p ∈ rankedRows db userEmail isAdmin env.dist topK, ∀ q ∈ rest,
        p.2 ≤ q.2) ∧
    (env.apiKeyConfigured = true → env.embedQueryResult = some v →
      env.dbOk = true →
      (retrieveContext env db userEmail isAdmin topK).2 =
        (rankedRows db userEmail isAdmin env.dist topK).map Prod.fst) := by
  have hsorted : List.Pairwise distLE
      ((combinedRows db userEmail isAdmin env.dist).insertionSort distLE) :=
    List.sorted_insertionSort distLE _
  refine ⟨?_, ?_, ?_, ?_⟩
  · exact List.Pairwise.sublist (List.take_sublist _ _) hsorted
  · rw [rankedRows, List.length_take,
      (List.perm_insertionSort distLE _).length_eq]
  · refine ⟨((combinedRows db userEmail isAdmin env.dist).insertionSort
        distLE).drop topK, ?_, ?_⟩
    · have hta := List.take_append_drop topK
        ((combinedRows db userEmail isAdmin env.dist).insertionSort distLE)
      rw [rankedRows, hta]
      exact (List.perm_insertionSort distLE _).symm
    · intro p hp q hq
      have hpair := hsorted
      rw [← List.take_append_drop topK
        ((combinedRows db userEmail isAdmin env.dist).insertionSort distLE)]
        at hpair
      exact (List.pairwise_append.mp hpair).2.2 p hp q hq
  · intro hk hv hdb
    simp only [retrieveContext, hk, hv, hdb]
    repeat' split
    all_goals simp_all

/-- Database for the C8 witness: three embedded personal chunks whose
distances from the query embedding are 0.1, 0.3 and 0.2. -/
def c8Db : Database :=
  ⟨[⟨"u@example.com", none⟩],
   [⟨1, "u@example.com", "f.txt", true⟩],
   [⟨1, "c1", some [1], 0⟩, ⟨1, "c2", some [2], 1⟩, ⟨1, "c3", some [3], 2⟩],
   [], [], [], []⟩

/-- Environment for the C8 witness: the distance function assigns
0.1, 0.3, 0.2 to the three stored vectors. -/
def c8Env : RetrievalEnv :=
  ⟨true, some [0], true, fun v =>
    if v = [1] then mkRat 1 10 else if v = [2] then mkRat 3 10
    else if v = [3] then mkRat 2 10 else 0⟩

/-- Witness for C8: with distances 0.1, 0.3, 0.2 and `topK = 2` the
returned rows are the two lowest distances in ascending order
(0.1 then 0.2). -/
theorem C8_witness :
    List.Pairwise distLE (rankedRows c8Db "u@example.com" false
      c8Env.dist 2) ∧
    (retrieveContext c8Env c8Db "u@example.com" false 2).2 =
      [⟨"c1", 0, 1, "f.txt", .personal⟩, ⟨"c3", 2, 1, "f.txt", .personal⟩] :=
  ⟨(C8_ranking c8Env c8Db "u@example.com" false 2 [0]).1, by decide⟩
